import Mathlib

set_option maxRecDepth 16000

/-!
Verification development for the alert bot in `src/alerts.py`.

Shallow-embedding conventions:

* Python strings are Lean `String`s.  An absent attribute of an RSS entry is
  modelled as the empty string, matching the code's `getattr(e, "x", "") or ""`
  idiom (both a missing attribute and a falsy value collapse to `""`).
  NWS feature properties use `Option String`, because `p.get("event", "NWS Alert")`
  distinguishes an absent key (default used) from a present empty value.
* Timestamps are `Int` (seconds since the epoch).  `dateutil` parsing is an
  external library, so it is an oracle parameter `parse : String → Option Int`;
  `none` covers both a `None` result and a raised exception (which `is_recent`
  swallows and turns into `False`).
* `is_recent` in the source computes `age_minutes = (now - dt).total_seconds()/60`
  and tests `age_minutes <= window_minutes`; over integer-second timestamps this
  is exactly `now - dt ≤ 60 * window_minutes` (theorem `age_div_form` below
  proves the equivalence with the division form), which is the executable
  comparison used in the definition.
* The Telegram transport is an oracle `deliver : String → Bool`; the source
  ignores its outcome beyond logging (`send_telegram` catches every exception),
  so delivery results are recorded but never influence control flow.
* Python's `.lower()` is `Char.toLower` on each character; every keyword in the
  configuration is ASCII, where the two coincide.
-/

/-- `PAYWALL_DOMAINS` from the source. -/
def PAYWALL_DOMAINS : List String :=
  ["washingtonpost.com", "nytimes.com", "wsj.com", "ft.com", "economist.com",
   "bloomberg.com", "thetimes.co.uk", "telegraph.co.uk"]

/-- `SPORTS_KEYWORDS` from the source. -/
def SPORTS_KEYWORDS : List String :=
  ["nfl", "nba", "mlb", "nhl", "fifa", "uefa", "premier league",
   "champions league", "world cup", "super bowl", "playoffs",
   "football", "basketball", "baseball", "hockey", "soccer",
   "espn", "sports", "game", "match", "score", "team wins",
   "quarterback", "touchdown", "goal", "championship"]

/-- `BORING_KEYWORDS` from the source. -/
def BORING_KEYWORDS : List String :=
  ["trade deal", "economic summit", "diplomatic visit",
   "bilateral talks", "policy speech", "routine meeting",
   "annual report", "quarterly earnings", "market update"]

/-- `HIGH_PRIORITY_KEYWORDS` from the source. -/
def HIGH_PRIORITY_KEYWORDS : List String :=
  ["zero-day", "critical vulnerability", "ransomware attack", "data breach",
   "arrested", "indicted", "sentenced", "convicted", "corruption",
   "earthquake", "tsunami", "hurricane", "tornado", "disaster",
   "emergency", "breaking", "major incident", "explosion", "shooting",
   "fraud", "scam", "hack", "exploit", "leaked", "exposed"]

/-- The inline urgency-marker list of `calculate_priority`
(`["breaking", "urgent", "critical", "emergency"]`). -/
def URGENT_WORDS : List String := ["breaking", "urgent", "critical", "emergency"]

/-- Python's `str.lower()` restricted to the ASCII range (all configured
keywords are ASCII). -/
def pyLower (s : String) : String := String.mk (s.data.map Char.toLower)

/-- Helper for Python's `a or b` on strings: the empty string is falsy. -/
def pyOr (a b : String) : String := if a = "" then b else a

/-- Does `needle` occur as a contiguous substring of the character list `hay`?
This is Python's `needle in hay`. -/
def substrIn (needle : List Char) : List Char → Bool
  | [] => needle.isEmpty
  | c :: cs => needle.isPrefixOf (c :: cs) || substrIn needle cs

/-- Python's `needle in hay` on strings. -/
def containsSubstr (needle hay : String) : Bool := substrIn needle.toList hay.toList

/-- Embedding of `is_paywall`. -/
def is_paywall (url : String) : Bool :=
  PAYWALL_DOMAINS.any fun d => containsSubstr d (pyLower url)

/-- Embedding of `contains_sports`. -/
def contains_sports (text : String) : Bool :=
  SPORTS_KEYWORDS.any fun k => containsSubstr k (pyLower text)

/-- Embedding of `is_boring`: a priority of at least 20 overrides the boring
filter, otherwise any `BORING_KEYWORDS` match rejects. -/
def is_boring (text : String) (priority : Nat) : Bool :=
  if 20 ≤ priority then false
  else BORING_KEYWORDS.any fun k => containsSubstr k (pyLower text)

/-- Embedding of `calculate_priority`: +10 per matching high-priority keyword
(the loop adds 10 for each match, i.e. 10 times the match count), +20 once if
any urgency marker is present. -/
def calculate_priority (title content : String) : Nat :=
  let text := pyLower (title ++ " " ++ content)
  let score := 10 * (HIGH_PRIORITY_KEYWORDS.countP fun k => containsSubstr k text)
  if URGENT_WORDS.any (fun w => containsSubstr w text) then score + 20 else score

/-- Embedding of `is_recent`.  The empty string is the falsy/absent timestamp;
a failed parse (or a parsing exception) yields `False`; otherwise the age test
is the source's `(now - dt)/60 ≤ window_minutes`, expressed over integer
seconds as `now - dt ≤ 60 * window_minutes` (see `age_div_form`). -/
def is_recent (parse : String → Option Int) (now : Int) (dt_str : String)
    (window_minutes : Int) : Bool :=
  if dt_str = "" then false
  else
    match parse dt_str with
    | none => false
    | some dt => decide (now - dt ≤ 60 * window_minutes)

/-- Retention window used by the dedup store: `timedelta(days=7)` in seconds. -/
def SEVEN_DAYS : Int := 7 * 86400

/-- Embedding of `load_seen_items`: keep the identifiers whose stamp `v`
satisfies `v > now - 7 days`, and return the key set.  The persisted mapping is
modelled as an association list (a JSON object has unique keys). -/
def load_seen_items (data : List (String × Int)) (now : Int) : List String :=
  (data.filter fun kv => decide (now - SEVEN_DAYS < kv.2)).map Prod.fst

/-- Key set of a persisted mapping. -/
def seenKeys (l : List (String × Int)) : List String := l.map Prod.fst

/-- The merge loop of `save_seen_items`: each identifier of `seenL` that is not
yet a key of the mapping is appended with stamp `now`; identifiers already
present are left untouched. -/
def mergeSeen (existing : List (String × Int)) (seenL : List String) (now : Int) :
    List (String × Int) :=
  seenL.foldl (fun ex i => if i ∈ seenKeys ex then ex else ex ++ [(i, now)]) existing

/-- Embedding of `save_seen_items`: merge the new identifiers, then drop every
entry whose stamp is not strictly newer than `now - 7 days`, and persist the
result. -/
def save_seen_items (existing : List (String × Int)) (seenL : List String)
    (now : Int) : List (String × Int) :=
  (mergeSeen existing seenL now).filter fun kv => decide (now - SEVEN_DAYS < kv.2)

/-- A normalized RSS/Atom entry as the code reads it with `getattr(e, _, "")`.
Absent attributes are the empty string. -/
structure Entry where
  id : String
  guid : String
  link : String
  title : String
  published : String
  updated : String
  summary : String

/-- Embedding of `entry_id`: first truthy of `id`, `guid`, `link`, `title`,
else the empty string. -/
def entry_id (e : Entry) : String := pyOr e.id (pyOr e.guid (pyOr e.link e.title))

/-- The record the normal-mode loop appends to `new_items`. -/
structure Item where
  label : String
  title : String
  link : String
  priority : Nat

/-- The `properties` object of an NWS feature; `none` is an absent key. -/
structure NwsProps where
  event : Option String
  areaDesc : Option String
  sent : Option String
  effective : Option String
  onset : Option String
  uri : Option String
  id : Option String

/-- `p.get(k)` without default: absent keys become the empty string for the
purposes of the `or` chains below. -/
def optStr (o : Option String) : String := o.getD ""

/-- `p.get("sent") or p.get("effective") or p.get("onset") or ""` in normal mode. -/
def nwsTimestamp (p : NwsProps) : String :=
  pyOr (optStr p.sent) (pyOr (optStr p.effective) (optStr p.onset))

/-- `p.get("event", "NWS Alert")`. -/
def nwsEvent (p : NwsProps) : String := p.event.getD "NWS Alert"

/-- `p.get("areaDesc", "")`. -/
def nwsArea (p : NwsProps) : String := optStr p.areaDesc

/-- `p.get("uri") or p.get("id") or "https://www.weather.gov/alerts"`. -/
def nwsLink (p : NwsProps) : String :=
  pyOr (optStr p.uri) (pyOr (optStr p.id) "https://www.weather.gov/alerts")

/-- One dispatched notification, before formatting: either a scored RSS item or
an NWS severe-weather alert (which the code never scores). -/
inductive Sent where
  | rss (priority : Nat) (label title link : String)
  | nws (event area link : String)
deriving DecidableEq

/-- Python slicing `s[:n]` by code points. -/
def strTake (s : String) (n : Nat) : String := String.mk (s.data.take n)

/-- The message text the code sends for each dispatched element: RSS items get
the fire marker exactly when their priority score is at least 20; NWS alerts
are always formatted with the fire marker and a 140-character area excerpt. -/
def formatSent : Sent → String
  | Sent.rss priority label title link =>
      (if 20 ≤ priority then "🔥 " else "") ++ label ++ "\n<b>" ++ title ++
        "</b>\n<a href=\"" ++ link ++ "\">Read more</a>"
  | Sent.nws event area link =>
      "🔥 ⚠️ SEVERE WEATHER (US)\n<b>" ++ event ++ "</b>\n📍 " ++ strTake area 140 ++
        "\n<a href=\"" ++ link ++ "\">Details</a>"

/-- One iteration of the normal-mode entry loop of `check_rss_sources`:
dedup check, paywall, sports, recency, scoring, boring filter, in that order.
On success the identifier is added to the in-memory seen set and the scored
item is produced; on any skip the state is unchanged. -/
def processEntry (parse : String → Option Int) (now : Int) (w : Int)
    (seen : List String) (label : String) (e : Entry) :
    List String × Option Item :=
  let eid := entry_id e
  if eid ∈ seen then (seen, none)
  else
    let title := pyOr e.title "New item"
    let link := e.link
    let published := pyOr e.published e.updated
    let summary := e.summary
    if link = "" then (seen, none)
    else if is_paywall link then (seen, none)
    else if contains_sports (title ++ " " ++ summary) then (seen, none)
    else if is_recent parse now published w then
      let priority := calculate_priority title summary
      if is_boring (title ++ " " ++ summary) priority then (seen, none)
      else (eid :: seen, some ⟨label, title, link, priority⟩)
    else (seen, none)

/-- The normal-mode entry loop over one feed, threading the seen set and
collecting the surviving items in feed order. -/
def processEntries (parse : String → Option Int) (now : Int) (w : Int)
    (label : String) (seen : List String) : List Entry → List String × List Item
  | [] => (seen, [])
  | e :: es =>
    let pr := processEntry parse now w seen label e
    let r := processEntries parse now w label pr.1 es
    match pr.2 with
    | none => r
    | some it => (r.1, it :: r.2)

/-- The normal-mode source loop of `check_rss_sources`: iterate the configured
feeds in enumeration order, collecting all surviving items. -/
def collectRss (parse : String → Option Int) (now : Int) (w : Int)
    (seen : List String) : List (String × List Entry) → List String × List Item
  | [] => (seen, [])
  | (label, entries) :: rest =>
    let r := processEntries parse now w label seen entries
    let r2 := collectRss parse now w r.1 rest
    (r2.1, r.2 ++ r2.2)

/-- Stable-insertion step for the descending sort: the new element `x` (which
precedes the accumulated elements in the original list) is placed before the
first element whose priority does not exceed `x`'s. -/
def insertItem (x : Item) : List Item → List Item
  | [] => [x]
  | y :: ys => if y.priority ≤ x.priority then x :: y :: ys else y :: insertItem x ys

/-- Embedding of `new_items.sort(key=lambda x: x['priority'], reverse=True)`:
Python's sort is stable, so the result is the unique stable descending
reordering; it is realized here as a stable insertion sort (sortedness,
permutation and stability are proved below). -/
def sortByPriorityDesc (l : List Item) : List Item := l.foldr insertItem []

/-- The dispatch sequence of the sorted RSS items. -/
def rssSentOf (items : List Item) : List Sent :=
  items.map fun it => Sent.rss it.priority it.label it.title it.link

/-- The normal-mode loop of `check_nws_severe`: every feature whose timestamp
chain passes the recency test is dispatched immediately, in feed order, with
no dedup check and no scoring. -/
def nwsSentNormal (parse : String → Option Int) (now : Int) (w : Int)
    (feats : List NwsProps) : List Sent :=
  feats.filterMap fun p =>
    if is_recent parse now (nwsTimestamp p) w then
      some (Sent.nws (nwsEvent p) (nwsArea p) (nwsLink p))
    else none

/-- The complete normal-mode dispatch order of one run: `main` first runs
`check_rss_sources` (which sorts its own survivors by priority and sends them)
and then `check_nws_severe` (which sends every recent alert as it iterates). -/
def runSentNormal (parse : String → Option Int) (now : Int) (w : Int)
    (seen : List String) (feeds : List (String × List Entry))
    (feats : List NwsProps) : List Sent :=
  rssSentOf (sortByPriorityDesc (collectRss parse now w seen feeds).2) ++
    nwsSentNormal parse now w feats

/-- The in-memory seen set at the end of the normal-mode RSS pass. -/
def runSeenOut (parse : String → Option Int) (now : Int) (w : Int)
    (seen : List String) (feeds : List (String × List Entry)) : List String :=
  (collectRss parse now w seen feeds).1

/-- Debug-mode messages for one feed: up to two sample entries, sent whenever
they have a link, with no filtering, no scoring and no dedup check. -/
def debugRssSource (label : String) (entries : List Entry) : List String :=
  (entries.take 2).filterMap fun e =>
    if e.link = "" then none
    else
      some ("[DEBUG] " ++ label ++ "\n<b>" ++ pyOr e.title "New item" ++
        "</b>\n📅 " ++ pyOr e.published (pyOr e.updated "No date") ++
        "\n<a href=\"" ++ e.link ++ "\">Read more</a>")

/-- `p.get("sent") or p.get("effective") or "Unknown time"` (debug mode). -/
def nwsDebugTs (p : NwsProps) : String :=
  pyOr (optStr p.sent) (pyOr (optStr p.effective) "Unknown time")

/-- Debug-mode messages of `check_nws_severe`: the first two features,
unconditionally. -/
def debugNws (feats : List NwsProps) : List String :=
  (feats.take 2).map fun p =>
    "[DEBUG] ⚠️ SEVERE WEATHER (US)\n<b>" ++ nwsEvent p ++ "</b>\n📍 " ++
      strTake (nwsArea p) 140 ++ "\n📅 " ++ nwsDebugTs p ++
      "\n<a href=\"" ++ nwsLink p ++ "\">Details</a>"

/-- Embedding of `check_rss_sources`: returns the messages sent, in order, and
the seen set as it stands after the call (debug mode leaves it untouched). -/
def check_rss_sources (parse : String → Option Int) (now : Int) (w : Int)
    (debug : Bool) (seen : List String) (feeds : List (String × List Entry)) :
    List String × List String :=
  if debug then ((feeds.map fun s => debugRssSource s.1 s.2).flatten, seen)
  else
    let r := collectRss parse now w seen feeds
    ((rssSentOf (sortByPriorityDesc r.2)).map formatSent, r.1)

/-- Embedding of `check_nws_severe`: the messages sent, in order. -/
def check_nws_severe (parse : String → Option Int) (now : Int) (w : Int)
    (debug : Bool) (feats : List NwsProps) : List String :=
  if debug then debugNws feats else (nwsSentNormal parse now w feats).map formatSent

/-- The persistence step of `main`: the store file is rewritten through
`save_seen_items` unless the run is in debug mode. -/
def mainStore (debug : Bool) (store : List (String × Int)) (seenOut : List String)
    (now : Int) : List (String × Int) :=
  if debug then store else save_seen_items store seenOut now

/-- Attempt delivery of every message through the transport oracle, recording
each outcome; the code ignores the outcomes beyond logging. -/
def deliverAll (deliver : String → Bool) (msgs : List String) : List (String × Bool) :=
  msgs.map fun m => (m, deliver m)

/-- Aggregate outcome of one invocation of `main`. -/
structure RunOutcome where
  sent : List (String × Bool)
  store : List (String × Int)

/-- Embedding of `main`: load the seen set, run the RSS pass then the NWS pass
(sending as described above), and persist the updated seen set unless in debug
mode.  Delivery outcomes are recorded but influence nothing. -/
def mainRun (deliver : String → Bool) (parse : String → Option Int) (now : Int)
    (w : Int) (debug : Bool) (store : List (String × Int))
    (feeds : List (String × List Entry)) (feats : List NwsProps) : RunOutcome :=
  let seen0 := load_seen_items store now
  let rss := check_rss_sources parse now w debug seen0 feeds
  let msgs := rss.1 ++ check_nws_severe parse now w debug feats
  ⟨deliverAll deliver msgs, mainStore debug store rss.2 now⟩

/-- Following the claim's words (C1): the priority score of a dispatched
element.  RSS items carry their computed score; an NWS alert is scored by the
same scorer applied to the spec's projection of a feature into an Item
(`event` is the title, `areaDesc` the summary).  The source never actually
scores NWS alerts. -/
def sentScore : Sent → Nat
  | Sent.rss p _ _ _ => p
  | Sent.nws e a _ => calculate_priority e a

/-- Is a dispatch sequence sorted by descending score? -/
def sortedDescByScore : List Sent → Bool
  | [] => true
  | [_] => true
  | a :: b :: t => decide (sentScore b ≤ sentScore a) && sortedDescByScore (b :: t)

/-- Remove from every feed the entries whose resolved identifier is `i`. -/
def removeEntriesWithId (i : String) (feeds : List (String × List Entry)) :
    List (String × List Entry) :=
  feeds.map fun s => (s.1, s.2.filter fun e => !(entry_id e == i))

/-- A fixed "current time" for the concrete scenarios below. -/
def nowC : Int := 1000000

/-- A parse oracle that reads every timestamp string as one minute old. -/
def parseAll : String → Option Int := fun _ => some (nowC - 60)

/-- Concrete low-priority RSS entry ("hello world" scores 0). -/
def entryC1 : Entry := ⟨"", "", "https://example.org/plain", "hello world", "pub-c1", "", ""⟩

/-- One-feed catalog around `entryC1`. -/
def feedsC1 : List (String × List Entry) := [("Feed", [entryC1])]

/-- Concrete NWS feature: a tornado warning (its event text scores 10). -/
def featC1 : NwsProps :=
  ⟨some "Tornado Warning", some "Oklahoma", some "pub-nws", none, none,
   some "https://api.weather.gov/a/1", some "urn:oid:1"⟩

/-- The NWS feed for the C1 scenario. -/
def featsC1 : List NwsProps := [featC1]

/-- Parse oracle for the C2 scenario. -/
def parseC2 : String → Option Int := fun s => if s = "pub-nws" then some (nowC - 60) else none

/-- Persisted store for the C2 scenario: the NWS alert's identifier was
recorded (recently) before the run. -/
def storeC2 : List (String × Int) := [("urn-nws-1", nowC - 100)]

/-- NWS feature for the C2 scenario: its `id` (also its resolved link) is the
identifier already present in the store. -/
def featC2 : NwsProps :=
  ⟨some "Tornado Warning", some "Oklahoma", some "pub-nws", none, none, none,
   some "urn-nws-1"⟩

/-- The NWS feed for the C2 scenario. -/
def featsC2 : List NwsProps := [featC2]

/-- Parse oracle for the C5 scenario: the item was published 2 minutes ago. -/
def parseC5 : String → Option Int := fun s => if s = "pub-c5" then some (nowC - 120) else none

/-- The C5 end-to-end entry: fresh identifier, non-paywall link, published two
minutes ago, with the scenario's title. -/
def entryC5 : Entry :=
  ⟨"id-c5", "", "https://example.com/cve-story",
   "Critical vulnerability disclosed, CVE exploited in the wild", "pub-c5", "", ""⟩

/-- One-feed catalog around `entryC5`. -/
def feedsC5 : List (String × List Entry) := [("SecFeed", [entryC5])]

/-- Store for the C10 scenario: the entry's identifier carries a stale stamp
(the epoch, far more than 7 days before `nowC`). -/
def storeC10 : List (String × Int) := [("id-c10", 0)]

/-- Entry for the C10 scenario. -/
def entryC10 : Entry := ⟨"id-c10", "", "https://example.org/story", "hello world", "pub-c1", "", ""⟩

/-- One-feed catalog around `entryC10`. -/
def feedsC10 : List (String × List Entry) := [("Feed", [entryC10])]

/-- Entry whose identifier is already in the seen set in the C2 witness. -/
def entryDup : Entry := ⟨"dup-1", "", "https://example.org/d", "hello", "pub-c1", "", ""⟩

/-- Feed catalog for the C2 witness: a pre-seen entry next to a fresh one. -/
def feedsDup : List (String × List Entry) := [("F", [entryDup, entryC1])]

/-- Over integer-second timestamps, the source's real-valued comparison
`age/60 ≤ window` is exactly the integer comparison `age ≤ 60 * window`. -/
theorem age_div_form (a w : Int) : ((a : ℚ) / 60 ≤ (w : ℚ)) ↔ a ≤ 60 * w := by
  rw [div_le_iff₀ (by norm_num : (0:ℚ) < 60), mul_comm]
  exact_mod_cast Iff.rfl

/-- On a non-empty timestamp string that parses to `dt`, `is_recent` is the
pure age comparison. -/
theorem is_recent_parsed (parse : String → Option Int) (s : String) (now w dt : Int)
    (hs : ¬ s = "") (hp : parse s = some dt) :
    is_recent parse now s w = decide (now - dt ≤ 60 * w) := by
  unfold is_recent
  rw [if_neg hs, hp]

/-- C4: the recency window edge is inclusive — a publication timestamp of
exactly `now - window` is accepted, `now - window` minus one second is
rejected, and the test performed is precisely `now - publishedAt ≤ window`
(shown both in the source's divided-by-60 form and in seconds). -/
theorem c4_recency_window_edge (parse : String → Option Int) (s : String) (now w dt : Int)
    (hs : ¬ s = "") (hp : parse s = some dt) :
    (is_recent parse now s w = true ↔ ((now : ℚ) - (dt : ℚ)) / 60 ≤ (w : ℚ)) ∧
    (is_recent parse now s w = true ↔ now - dt ≤ 60 * w) ∧
    (dt = now - 60 * w → is_recent parse now s w = true) ∧
    (dt = now - 60 * w - 1 → is_recent parse now s w = false) := by
  have hr := is_recent_parsed parse s now w dt hs hp
  have hdiv : ((now : ℚ) - (dt : ℚ)) / 60 ≤ (w : ℚ) ↔ now - dt ≤ 60 * w := by
    rw [show ((now : ℚ) - (dt : ℚ)) = ((now - dt : Int) : ℚ) by push_cast; ring]
    exact age_div_form _ _
  refine ⟨?_, ?_, ?_, ?_⟩
  · rw [hr, decide_eq_true_eq]
    exact hdiv.symm
  · rw [hr, decide_eq_true_eq]
  · intro h
    rw [hr, decide_eq_true_eq]
    omega
  · intro h
    rw [hr]
    simp only [decide_eq_false_iff_not]
    omega

/-- Witness for C4 at a concrete input: `now = 1800`, a 30-minute window, and
a timestamp that parses to `0 = now - 60 * 30`, i.e. exactly the window edge. -/
theorem c4_recency_window_edge_witness :
    is_recent (fun x => if x = "a" then some 0 else none) 1800 "a" 30 = true :=
  (c4_recency_window_edge (fun x => if x = "a" then some 0 else none) "a" 1800 30 0
      (by decide) (by decide)).2.2.1 (by decide)

/-- C8: an absent (empty) timestamp string, and any string the parser fails
on, make the recency test return `false`; the embedding is total, reflecting
that `is_recent` swallows parser exceptions and never propagates them. -/
theorem c8_unparseable_not_recent (parse : String → Option Int) (now w : Int) (s : String) :
    is_recent parse now "" w = false ∧
    (parse s = none → is_recent parse now s w = false) := by
  constructor
  · unfold is_recent
    rw [if_pos rfl]
  · intro hp
    by_cases hs : s = ""
    · subst hs
      unfold is_recent
      rw [if_pos rfl]
    · unfold is_recent
      rw [if_neg hs, hp]

/-- Witness for C8: a parser that always fails, on the empty and on a
non-empty timestamp string. -/
theorem c8_unparseable_not_recent_witness :
    is_recent (fun _ => none) 0 "" 30 = false ∧
    is_recent (fun _ => none) 0 "x" 30 = false :=
  ⟨(c8_unparseable_not_recent (fun _ => none) 0 30 "x").1,
   (c8_unparseable_not_recent (fun _ => none) 0 30 "x").2 rfl⟩

/-- C3: if the title-plus-summary text contains any urgency-marker keyword
(the override set realized by this code: any such match forces the computed
priority to at least 20, which exempts the item from the boring filter), then
`is_boring` — invoked by the pipeline with that very priority — never rejects
the item, no matter which and how many boring keywords also match. -/
theorem c3_override_keyword_never_boring (title summary : String)
    (h : ∃ kw, kw ∈ URGENT_WORDS ∧
      containsSubstr kw (pyLower (title ++ " " ++ summary)) = true) :
    is_boring (title ++ " " ++ summary) (calculate_priority title summary) = false := by
  have hany : URGENT_WORDS.any
      (fun w => containsSubstr w (pyLower (title ++ " " ++ summary))) = true := by
    obtain ⟨kw, hkw, hsub⟩ := h
    exact List.any_eq_true.mpr ⟨kw, hkw, hsub⟩
  have hp : 20 ≤ calculate_priority title summary := by
    unfold calculate_priority
    simp only [hany, if_true]
    exact Nat.le_add_left 20 _
  unfold is_boring
  rw [if_pos hp]

/-- Witness for C3: a text that contains the override keyword "breaking" and
every single boring keyword, and is still not rejected by the boring filter. -/
theorem c3_override_keyword_never_boring_witness :
    BORING_KEYWORDS.all
      (fun k => containsSubstr k (pyLower
        ("Breaking: trade deal economic summit diplomatic visit bilateral talks policy speech routine meeting annual report quarterly earnings market update"
          ++ " " ++ ""))) = true ∧
    is_boring
      ("Breaking: trade deal economic summit diplomatic visit bilateral talks policy speech routine meeting annual report quarterly earnings market update"
        ++ " " ++ "")
      (calculate_priority
        "Breaking: trade deal economic summit diplomatic visit bilateral talks policy speech routine meeting annual report quarterly earnings market update"
        "") = false :=
  ⟨by decide,
   c3_override_keyword_never_boring _ _ ⟨"breaking", by decide, by decide⟩⟩

/-- C1 counterexample: the claim says all surviving items across all
configured sources are dispatched as one globally score-sorted sequence.  In
this concrete run an RSS item scoring 0 is dispatched before an NWS tornado
alert whose title/summary projection scores 10 under the program's own scorer
(the code dispatches NWS alerts after all RSS items, unscored and unsorted),
so the dispatch sequence is not sorted by descending score. -/
theorem c1_counterexample :
    runSentNormal parseAll nowC 30 [] feedsC1 featsC1 =
      [Sent.rss 0 "Feed" "hello world" "https://example.org/plain",
       Sent.nws "Tornado Warning" "Oklahoma" "https://api.weather.gov/a/1"] ∧
    sentScore (Sent.nws "Tornado Warning" "Oklahoma" "https://api.weather.gov/a/1") = 10 ∧
    sortedDescByScore (runSentNormal parseAll nowC 30 [] feedsC1 featsC1) = false := by
  refine ⟨by decide, by decide, by decide⟩

/-- C2 counterexample: the identifier `urn-nws-1` is in the dedup store at
load time, yet the NWS alert whose resolved identifier (its `id` field, which
is also the link the code dispatches it under) equals it is still dispatched
in the same run — `check_nws_severe` never consults the seen set. -/
theorem c2_counterexample :
    "urn-nws-1" ∈ load_seen_items storeC2 nowC ∧
    runSentNormal parseC2 nowC 30 (load_seen_items storeC2 nowC) [] featsC2 =
      [Sent.nws "Tornado Warning" "Oklahoma" "urn-nws-1"] := by
  refine ⟨by decide, by decide⟩

/-- C5: the end-to-end scenario.  An entry published 2 minutes ago with the
scenario title, a non-paywall link and a fresh identifier passes the paywall,
sports, recency and boring stages, scores 40 ≥ 30 (two high-priority keyword
matches plus the urgency bonus for "critical"), and is dispatched as the only
message of the run, with the severity marker prefixed since 40 ≥ 20. -/
theorem c5_end_to_end_scenario :
    is_paywall "https://example.com/cve-story" = false ∧
    contains_sports
      ("Critical vulnerability disclosed, CVE exploited in the wild" ++ " " ++ "") = false ∧
    is_recent parseC5 nowC "pub-c5" 30 = true ∧
    calculate_priority "Critical vulnerability disclosed, CVE exploited in the wild" "" = 40 ∧
    is_boring
      ("Critical vulnerability disclosed, CVE exploited in the wild" ++ " " ++ "") 40 = false ∧
    30 ≤ calculate_priority "Critical vulnerability disclosed, CVE exploited in the wild" "" ∧
    runSentNormal parseC5 nowC 30 [] feedsC5 [] =
      [Sent.rss 40 "SecFeed" "Critical vulnerability disclosed, CVE exploited in the wild"
        "https://example.com/cve-story"] ∧
    (runSentNormal parseC5 nowC 30 [] feedsC5 []).map formatSent =
      ["🔥 SecFeed\n<b>Critical vulnerability disclosed, CVE exploited in the wild</b>\n<a href=\"https://example.com/cve-story\">Read more</a>"] := by
  refine ⟨by decide, by decide, by decide, by decide, by decide, by decide, by decide, by decide⟩

/-- C6 counterexample: the claim says a save never changes the stored
timestamp of an already-persisted identifier.  For an identifier whose stamp
is older than the retention window, the save purges the entry instead: the
stored timestamp goes from `some 0` to `none`. -/
theorem c6_counterexample :
    List.lookup "a" [(("a" : String), (0 : Int))] = some 0 ∧
    List.lookup "a" (save_seen_items [("a", 0)] ["a"] 1000000) ≠ some 0 := by
  refine ⟨by decide, by decide⟩

/-- C10 counterexample: the identifier `id-c10` sits in the persisted store
with a stale stamp (older than 7 days).  The run dispatches the item (its id
was purged at load), delivery fails, and the final store is empty — the
identifier is not persisted because `save_seen_items` keeps the stale stamp
(never re-stamps) and then purges it.  A second run 600 seconds later —
well inside the retention window — dispatches the very same item again. -/
theorem c10_counterexample :
    (mainRun (fun _ => false) parseAll nowC 30 false storeC10 feedsC10 []).sent =
      [("Feed\n<b>hello world</b>\n<a href=\"https://example.org/story\">Read more</a>", false)] ∧
    (mainRun (fun _ => false) parseAll nowC 30 false storeC10 feedsC10 []).store = [] ∧
    (600 : Int) < SEVEN_DAYS ∧
    (mainRun (fun _ => false) parseAll (nowC + 600) 30 false
        (mainRun (fun _ => false) parseAll nowC 30 false storeC10 feedsC10 []).store
        feedsC10 []).sent =
      [("Feed\n<b>hello world</b>\n<a href=\"https://example.org/story\">Read more</a>", false)] := by
  refine ⟨by decide, by decide, by decide, by decide⟩

/-- Looking up in an extended mapping still finds an entry of the original
prefix. -/
theorem lookup_append_some (a : String) (t : Int) :
    ∀ l1 l2 : List (String × Int), l1.lookup a = some t → (l1 ++ l2).lookup a = some t := by
  intro l1
  induction l1 with
  | nil => intro l2 h; simp [List.lookup] at h
  | cons kv rest ih =>
    intro l2 h
    obtain ⟨k, v⟩ := kv
    rw [List.cons_append]
    cases hak : a == k <;> simp only [List.lookup_cons, hak] at h ⊢
    · exact ih l2 h
    · exact h

/-- Filtering with a predicate that holds at the looked-up entry preserves the
lookup result. -/
theorem lookup_filter_some (a : String) (t : Int) (p : String × Int → Bool) :
    ∀ l : List (String × Int), l.lookup a = some t → p (a, t) = true →
      (l.filter p).lookup a = some t := by
  intro l
  induction l with
  | nil => intro h _; simp [List.lookup] at h
  | cons kv rest ih =>
    intro h hpt
    obtain ⟨k, v⟩ := kv
    cases hak : a == k
    · simp only [List.lookup_cons, hak] at h
      rw [List.filter_cons]
      by_cases hpk : p (k, v) = true
      · rw [if_pos hpk]
        simp only [List.lookup_cons, hak]
        exact ih h hpt
      · rw [if_neg hpk]
        exact ih h hpt
    · have hk : a = k := eq_of_beq hak
      simp only [List.lookup_cons, hak] at h
      have hv : v = t := by simpa using h
      subst hk
      subst hv
      rw [List.filter_cons, if_pos hpt]
      simp [List.lookup_cons]

/-- Unfolding of the merge loop on one identifier. -/
theorem mergeSeen_cons (ex : List (String × Int)) (x : String) (xs : List String)
    (now : Int) :
    mergeSeen ex (x :: xs) now =
      mergeSeen (if x ∈ seenKeys ex then ex else ex ++ [(x, now)]) xs now := by
  simp [mergeSeen]

/-- The merge loop only appends: the existing mapping is a prefix of the
merged one. -/
theorem mergeSeen_eq_append (now : Int) :
    ∀ (seenL : List String) (ex : List (String × Int)),
      ∃ extra, mergeSeen ex seenL now = ex ++ extra := by
  intro seenL
  induction seenL with
  | nil => intro ex; exact ⟨[], by simp [mergeSeen]⟩
  | cons x xs ih =>
    intro ex
    rw [mergeSeen_cons]
    by_cases hx : x ∈ seenKeys ex
    · rw [if_pos hx]
      exact ih ex
    · rw [if_neg hx]
      obtain ⟨extra, he⟩ := ih (ex ++ [(x, now)])
      exact ⟨(x, now) :: extra, by rw [he, List.append_assoc]; rfl⟩

/-- C6 (amended): a save never re-stamps an already-persisted identifier, and
if its recorded stamp is still within the retention window the entry is
preserved verbatim.  (As the counterexample shows, an entry whose stamp is
older than the window is purged by the save — the one divergence from the
claim as stated.) -/
theorem c6_save_preserves_fresh_stamp (existing : List (String × Int))
    (seenL : List String) (now : Int) (i : String) (t : Int)
    (hl : existing.lookup i = some t) (ht : now - SEVEN_DAYS < t) :
    (save_seen_items existing seenL now).lookup i = some t := by
  obtain ⟨extra, he⟩ := mergeSeen_eq_append now seenL existing
  unfold save_seen_items
  rw [he]
  exact lookup_filter_some i t _ _ (lookup_append_some i t existing extra hl)
    (decide_eq_true ht)

/-- Witness for C6: saving a set that re-contains an already-persisted,
recently stamped identifier leaves its stamp unchanged. -/
theorem c6_save_preserves_fresh_stamp_witness :
    (save_seen_items [("a", 999000)] ["a", "b"] 1000000).lookup "a" = some 999000 :=
  c6_save_preserves_fresh_stamp [("a", 999000)] ["a", "b"] 1000000 "a" 999000
    (by decide) (by decide)

/-- C7: an identifier whose every recorded stamp lies more than the 7-day
retention window before `now` is absent from the set a fresh load returns. -/
theorem c7_retention_expires_old (data : List (String × Int)) (i : String) (now : Int)
    (h : ∀ t, (i, t) ∈ data → t < now - SEVEN_DAYS) :
    i ∉ load_seen_items data now := by
  intro hmem
  unfold load_seen_items at hmem
  obtain ⟨⟨a, b⟩, hab, hfst⟩ := List.mem_map.mp hmem
  obtain ⟨hmem2, hkeep⟩ := List.mem_filter.mp hab
  dsimp at hfst
  subst hfst
  have hlt := h b hmem2
  have hgt := of_decide_eq_true hkeep
  omega

/-- Witness for C7: an identifier stamped at the epoch (far more than 7 days
before `now = 1000000`) is absent from a fresh load. -/
theorem c7_retention_expires_old_witness :
    "old" ∉ load_seen_items [("old", 0)] 1000000 :=
  c7_retention_expires_old [("old", 0)] "old" 1000000 (by
    intro t ht
    have h0 : t = 0 := by simpa using ht
    subst h0
    decide)

/-- Inserting is a permutation of consing. -/
theorem insertItem_perm (x : Item) : ∀ l, List.Perm (insertItem x l) (x :: l) := by
  intro l
  induction l with
  | nil => simp [insertItem]
  | cons y ys ih =>
    by_cases h : y.priority ≤ x.priority
    · simp only [insertItem, if_pos h]
      exact List.Perm.refl _
    · simp only [insertItem, if_neg h]
      exact (ih.cons y).trans (List.Perm.swap x y ys)

/-- Inserting an element into a descending-sorted list keeps it sorted. -/
theorem insertItem_pairwise (x : Item) :
    ∀ l, List.Pairwise (fun a b => b.priority ≤ a.priority) l →
      List.Pairwise (fun a b => b.priority ≤ a.priority) (insertItem x l) := by
  intro l
  induction l with
  | nil => intro _; simp [insertItem]
  | cons y ys ih =>
    intro hp
    obtain ⟨hy, hys⟩ := List.pairwise_cons.mp hp
    by_cases h : y.priority ≤ x.priority
    · simp only [insertItem, if_pos h]
      refine List.pairwise_cons.mpr ⟨?_, hp⟩
      intro z hz
      rcases List.mem_cons.mp hz with rfl | hz2
      · exact h
      · exact le_trans (hy z hz2) h
    · simp only [insertItem, if_neg h]
      refine List.pairwise_cons.mpr ⟨?_, ih hys⟩
      intro z hz
      have hz3 : z ∈ x :: ys := (insertItem_perm x ys).mem_iff.mp hz
      rcases List.mem_cons.mp hz3 with rfl | hz2
      · exact (Nat.lt_of_not_le h).le
      · exact hy z hz2

/-- Stability of the insertion step: the elements of any fixed priority keep
their relative order, with the inserted element (which was earlier in the
original list) in front. -/
theorem filter_insertItem (x : Item) (p : Nat) :
    ∀ l, (insertItem x l).filter (fun it => it.priority == p) =
      (if x.priority == p then [x] else []) ++
        l.filter (fun it => it.priority == p) := by
  intro l
  induction l with
  | nil =>
    cases hx : x.priority == p <;> simp [insertItem, List.filter_cons, hx]
  | cons y ys ih =>
    by_cases h : y.priority ≤ x.priority
    · simp only [insertItem, if_pos h]
      cases hx : x.priority == p <;> simp [List.filter_cons, hx]
    · simp only [insertItem, if_neg h]
      cases hx : x.priority == p <;> cases hy : y.priority == p
      · simp [List.filter_cons, hx, hy, ih]
      · simp [List.filter_cons, hx, hy, ih]
      · simp [List.filter_cons, hx, hy, ih]
      · exfalso
        have h1 : x.priority = p := by simpa using hx
        have h2 : y.priority = p := by simpa using hy
        exact h (by omega)

/-- The sort is sorted: priorities are descending along the result. -/
theorem sortByPriorityDesc_pairwise (l : List Item) :
    List.Pairwise (fun a b => b.priority ≤ a.priority) (sortByPriorityDesc l) := by
  induction l with
  | nil => simp [sortByPriorityDesc]
  | cons x xs ih =>
    simp only [sortByPriorityDesc, List.foldr_cons] at ih ⊢
    exact insertItem_pairwise x _ ih

/-- The sort is a permutation: no survivor is lost or duplicated. -/
theorem sortByPriorityDesc_perm (l : List Item) :
    List.Perm (sortByPriorityDesc l) l := by
  induction l with
  | nil => exact List.Perm.refl _
  | cons x xs ih =>
    simp only [sortByPriorityDesc, List.foldr_cons] at ih ⊢
    exact (insertItem_perm x _).trans (ih.cons x)

/-- The sort is stable: for every priority value, the items carrying it appear
in exactly their original (source-enumeration-then-feed) order. -/
theorem sortByPriorityDesc_filter (l : List Item) (p : Nat) :
    (sortByPriorityDesc l).filter (fun it => it.priority == p) =
      l.filter (fun it => it.priority == p) := by
  induction l with
  | nil => rfl
  | cons x xs ih =>
    simp only [sortByPriorityDesc, List.foldr_cons] at ih ⊢
    rw [filter_insertItem, ih, List.filter_cons]
    cases hx : x.priority == p <;> simp [hx]

/-- C1 (amended): in normal mode the dispatch sequence is the RSS survivors of
all feeds — collected in source-enumeration-then-feed order — sorted by
priority score descending with a stable sort (equal scores keep their
collection order), followed by the NWS alerts in feed order.  NWS alerts are
not merged into the score-sorted sequence (see the counterexample). -/
theorem c1_rss_sort_and_nws_order (parse : String → Option Int) (now w : Int)
    (seen : List String) (feeds : List (String × List Entry)) (feats : List NwsProps) :
    runSentNormal parse now w seen feeds feats =
      rssSentOf (sortByPriorityDesc (collectRss parse now w seen feeds).2) ++
        nwsSentNormal parse now w feats ∧
    List.Pairwise (fun a b => b.priority ≤ a.priority)
      (sortByPriorityDesc (collectRss parse now w seen feeds).2) ∧
    List.Perm (sortByPriorityDesc (collectRss parse now w seen feeds).2)
      (collectRss parse now w seen feeds).2 ∧
    ∀ p : Nat, (sortByPriorityDesc (collectRss parse now w seen feeds).2).filter
        (fun it => it.priority == p) =
      (collectRss parse now w seen feeds).2.filter (fun it => it.priority == p) :=
  ⟨rfl, sortByPriorityDesc_pairwise _, sortByPriorityDesc_perm _,
   fun p => sortByPriorityDesc_filter _ p⟩

/-- The per-entry step never removes anything from the seen set. -/
theorem processEntry_fst_mem (parse : String → Option Int) (now w : Int)
    (seen : List String) (label : String) (e : Entry) (x : String) (hx : x ∈ seen) :
    x ∈ (processEntry parse now w seen label e).1 := by
  simp only [processEntry]
  split_ifs <;> simp [hx]

/-- An entry whose resolved identifier is already seen is skipped with no
effect: no item is produced and the seen set is unchanged. -/
theorem processEntry_skip (parse : String → Option Int) (now w : Int)
    (seen : List String) (label : String) (e : Entry) (h : entry_id e ∈ seen) :
    processEntry parse now w seen label e = (seen, none) := by
  unfold processEntry
  simp [h]

/-- The entry loop never removes anything from the seen set. -/
theorem processEntries_fst_mem (parse : String → Option Int) (now w : Int)
    (label : String) (x : String) :
    ∀ (es : List Entry) (seen : List String), x ∈ seen →
      x ∈ (processEntries parse now w label seen es).1 := by
  intro es
  induction es with
  | nil => intro seen hx; simpa [processEntries] using hx
  | cons e es ih =>
    intro seen hx
    simp only [processEntries]
    have h1 := processEntry_fst_mem parse now w seen label e x hx
    cases hpr : (processEntry parse now w seen label e).2 <;> simp only [hpr]
    · exact ih _ h1
    · exact ih _ h1

/-- Removing the entries whose resolved identifier is already in the seen set
changes nothing about the entry loop. -/
theorem processEntries_filter_id (parse : String → Option Int) (now w : Int)
    (label : String) (i : String) :
    ∀ (es : List Entry) (seen : List String), i ∈ seen →
      processEntries parse now w label seen (es.filter fun e => !(entry_id e == i)) =
        processEntries parse now w label seen es := by
  intro es
  induction es with
  | nil => intro seen _; rfl
  | cons e es ih =>
    intro seen hi
    rw [List.filter_cons]
    by_cases he : entry_id e = i
    · have hbe : (!(entry_id e == i)) = false := by simp [he]
      rw [hbe, if_neg (by simp)]
      have hskip := processEntry_skip parse now w seen label e (by rw [he]; exact hi)
      conv_rhs => rw [show (e :: es) = (e :: es) from rfl]
      simp only [processEntries, hskip]
      exact ih seen hi
    · have hbe : (!(entry_id e == i)) = true := by simp [he]
      rw [hbe, if_pos rfl]
      simp only [processEntries]
      rw [ih _ (processEntry_fst_mem parse now w seen label e i hi)]

/-- The source loop never removes anything from the seen set. -/
theorem collectRss_fst_mem (parse : String → Option Int) (now w : Int) (x : String) :
    ∀ (feeds : List (String × List Entry)) (seen : List String), x ∈ seen →
      x ∈ (collectRss parse now w seen feeds).1 := by
  intro feeds
  induction feeds with
  | nil => intro seen hx; simpa [collectRss] using hx
  | cons s rest ih =>
    intro seen hx
    obtain ⟨label, entries⟩ := s
    simp only [collectRss]
    exact ih _ (processEntries_fst_mem parse now w label x entries seen hx)

/-- One-step unfolding of the removal of an already-seen identifier. -/
theorem removeEntriesWithId_cons (i : String) (label : String) (entries : List Entry)
    (rest : List (String × List Entry)) :
    removeEntriesWithId i ((label, entries) :: rest) =
      (label, entries.filter fun e => !(entry_id e == i)) :: removeEntriesWithId i rest := rfl

/-- Removing from every feed the entries whose resolved identifier is already
in the seen set changes nothing about the whole RSS pass. -/
theorem collectRss_remove_id (parse : String → Option Int) (now w : Int) (i : String) :
    ∀ (feeds : List (String × List Entry)) (seen : List String), i ∈ seen →
      collectRss parse now w seen (removeEntriesWithId i feeds) =
        collectRss parse now w seen feeds := by
  intro feeds
  induction feeds with
  | nil => intro seen _; rfl
  | cons s rest ih =>
    intro seen hi
    obtain ⟨label, entries⟩ := s
    rw [removeEntriesWithId_cons]
    simp only [collectRss]
    rw [processEntries_filter_id parse now w label i entries seen hi]
    rw [ih _ (processEntries_fst_mem parse now w label i entries seen hi)]

/-- C2 (amended): every RSS entry whose resolved identifier is in the seen set
at (or after) load time is excluded from dispatch regardless of any filter or
score outcome — deleting all such entries changes neither the dispatch
sequence nor the final seen set.  (NWS alerts are not covered: as the
counterexample shows, `check_nws_severe` never consults the dedup store.) -/
theorem c2_rss_dedup_excludes (parse : String → Option Int) (now w : Int)
    (seen : List String) (feeds : List (String × List Entry)) (feats : List NwsProps)
    (i : String) (hi : i ∈ seen) :
    runSentNormal parse now w seen (removeEntriesWithId i feeds) feats =
      runSentNormal parse now w seen feeds feats ∧
    runSeenOut parse now w seen (removeEntriesWithId i feeds) =
      runSeenOut parse now w seen feeds := by
  have h := collectRss_remove_id parse now w i feeds seen hi
  constructor
  · unfold runSentNormal
    rw [h]
  · unfold runSeenOut
    rw [h]

/-- Witness for C2 (amended): with `dup-1` already seen, a run over a feed
containing an entry resolving to `dup-1` next to a fresh entry equals the run
with the duplicate entry deleted. -/
theorem c2_rss_dedup_excludes_witness :
    runSentNormal parseAll nowC 30 ["dup-1"] (removeEntriesWithId "dup-1" feedsDup) [] =
      runSentNormal parseAll nowC 30 ["dup-1"] feedsDup [] ∧
    runSeenOut parseAll nowC 30 ["dup-1"] (removeEntriesWithId "dup-1" feedsDup) =
      runSeenOut parseAll nowC 30 ["dup-1"] feedsDup :=
  c2_rss_dedup_excludes parseAll nowC 30 ["dup-1"] feedsDup [] "dup-1" (by decide)

/-- The merge loop preserves every existing key. -/
theorem mem_keys_mergeSeen_of_keys (now : Int) :
    ∀ (s : List String) (ex : List (String × Int)) (i : String),
      i ∈ seenKeys ex → i ∈ seenKeys (mergeSeen ex s now) := by
  intro s
  induction s with
  | nil => intro ex i h; simpa [mergeSeen] using h
  | cons x xs ih =>
    intro ex i h
    rw [mergeSeen_cons]
    apply ih
    by_cases hx : x ∈ seenKeys ex
    · rw [if_pos hx]; exact h
    · rw [if_neg hx]
      have hkeys : seenKeys (ex ++ [(x, now)]) = seenKeys ex ++ [x] := by
        simp [seenKeys]
      rw [hkeys]
      exact List.mem_append_left _ h

/-- Every identifier of the saved set is a key of the merged mapping. -/
theorem mem_keys_mergeSeen_of_mem (now : Int) :
    ∀ (s : List String) (ex : List (String × Int)) (i : String),
      i ∈ s → i ∈ seenKeys (mergeSeen ex s now) := by
  intro s
  induction s with
  | nil => intro ex i h; exact absurd h (List.not_mem_nil i)
  | cons x xs ih =>
    intro ex i h
    rw [mergeSeen_cons]
    rcases List.mem_cons.mp h with rfl | h2
    · apply mem_keys_mergeSeen_of_keys
      by_cases hx : i ∈ seenKeys ex
      · rw [if_pos hx]; exact hx
      · rw [if_neg hx]
        have hkeys : seenKeys (ex ++ [(i, now)]) = seenKeys ex ++ [i] := by
          simp [seenKeys]
        rw [hkeys]
        exact List.mem_append_right _ (by simp)
    · exact ih _ i h2

/-- Every entry of the merged mapping either comes from the existing mapping
or carries the current stamp. -/
theorem mem_mergeSeen (now : Int) :
    ∀ (s : List String) (ex : List (String × Int)) (i : String) (t : Int),
      (i, t) ∈ mergeSeen ex s now → (i, t) ∈ ex ∨ t = now := by
  intro s
  induction s with
  | nil => intro ex i t h; left; simpa [mergeSeen] using h
  | cons x xs ih =>
    intro ex i t h
    rw [mergeSeen_cons] at h
    rcases ih _ i t h with hin | rfl
    · by_cases hx : x ∈ seenKeys ex
      · rw [if_pos hx] at hin
        left; exact hin
      · rw [if_neg hx] at hin
        rcases List.mem_append.mp hin with h1 | h2
        · left; exact h1
        · right
          have hpair : (i, t) = (x, now) := by simpa using h2
          exact (Prod.ext_iff.mp hpair).2
    · right; rfl

/-- The persisted store a normal-mode run writes. -/
theorem mainRun_store_normal (deliver : String → Bool) (parse : String → Option Int)
    (now w : Int) (store : List (String × Int)) (feeds : List (String × List Entry))
    (feats : List NwsProps) :
    (mainRun deliver parse now w false store feeds feats).store =
      save_seen_items store (runSeenOut parse now w (load_seen_items store now) feeds)
        now := rfl

/-- An identifier of the saved seen set survives the save and a later load,
provided any pre-existing stamp of it is fresh enough for the later run and
the later run is within the retention window of this one. -/
theorem save_preserves_new_member (store : List (String × Int)) (seenOut : List String)
    (now now2 : Int) (i : String) (hmem : i ∈ seenOut)
    (h1 : ∀ t, (i, t) ∈ store → now2 - SEVEN_DAYS < t)
    (h2 : now2 - SEVEN_DAYS < now) (h3 : now ≤ now2) :
    i ∈ load_seen_items (save_seen_items store seenOut now) now2 := by
  have hk : i ∈ seenKeys (mergeSeen store seenOut now) :=
    mem_keys_mergeSeen_of_mem now seenOut store i hmem
  obtain ⟨⟨a, t⟩, hpair, hfst⟩ := List.mem_map.mp hk
  dsimp at hfst
  subst hfst
  have hsrc := mem_mergeSeen now seenOut store a t hpair
  have hc2 : now2 - SEVEN_DAYS < t := by
    rcases hsrc with hstore | rfl
    · exact h1 t hstore
    · exact h2
  have hc1 : now - SEVEN_DAYS < t := by omega
  have hsave : (a, t) ∈ save_seen_items store seenOut now :=
    List.mem_filter.mpr ⟨hpair, decide_eq_true hc1⟩
  unfold load_seen_items
  exact List.mem_map.mpr ⟨(a, t), List.mem_filter.mpr ⟨hsave, decide_eq_true hc2⟩, rfl⟩

/-- C10 (amended): (i) the persisted store of a normal run is independent of
every delivery outcome — an identifier collected when its entry passed the
filters (which happens before any send is attempted) is persisted even when
delivery fails for every item; (ii) the identifier is still in the set a later
run loads, provided the later run is within the retention window and any
pre-existing stamp of the identifier is also still fresh for it (the
counterexample shows a stale pre-existing stamp is purged without re-stamping,
allowing re-dispatch — the one divergence from the claim as stated); and
(iii) any later run whose loaded seen set contains the identifier dispatches
exactly as if every entry with that identifier were absent. -/
theorem c10_seen_persisted_despite_delivery_failure
    (d1 d2 : String → Bool) (parse parse2 : String → Option Int)
    (now now2 w w2 : Int) (store : List (String × Int))
    (feeds feeds2 : List (String × List Entry)) (feats feats2 : List NwsProps)
    (i : String)
    (hmem : i ∈ runSeenOut parse now w (load_seen_items store now) feeds)
    (h1 : ∀ t, (i, t) ∈ store → now2 - SEVEN_DAYS < t)
    (h2 : now2 - SEVEN_DAYS < now) (h3 : now ≤ now2) :
    (mainRun d1 parse now w false store feeds feats).store =
      (mainRun d2 parse now w false store feeds feats).store ∧
    i ∈ load_seen_items ((mainRun d1 parse now w false store feeds feats).store) now2 ∧
    (∀ seen2 : List String, i ∈ seen2 →
      runSentNormal parse2 now2 w2 seen2 (removeEntriesWithId i feeds2) feats2 =
        runSentNormal parse2 now2 w2 seen2 feeds2 feats2) := by
  refine ⟨rfl, ?_, ?_⟩
  · rw [mainRun_store_normal]
    exact save_preserves_new_member store _ now now2 i hmem h1 h2 h3
  · intro seen2 hs
    unfold runSentNormal
    rw [collectRss_remove_id parse2 now2 w2 i feeds2 seen2 hs]

/-- Witness for C10 (amended) on the C5 scenario: the item's identifier is
collected, persisted (whether delivery fails or succeeds), loaded again 600
seconds later, and a run that already has it in its seen set ignores entries
carrying it. -/
theorem c10_seen_persisted_despite_delivery_failure_witness :
    (mainRun (fun _ => false) parseC5 nowC 30 false [] feedsC5 []).store =
      (mainRun (fun _ => true) parseC5 nowC 30 false [] feedsC5 []).store ∧
    "id-c5" ∈ load_seen_items
      ((mainRun (fun _ => false) parseC5 nowC 30 false [] feedsC5 []).store)
      (nowC + 600) ∧
    (∀ seen2 : List String, "id-c5" ∈ seen2 →
      runSentNormal parseC5 (nowC + 600) 30 seen2
          (removeEntriesWithId "id-c5" feedsC5) [] =
        runSentNormal parseC5 (nowC + 600) 30 seen2 feedsC5 []) :=
  c10_seen_persisted_despite_delivery_failure (fun _ => false) (fun _ => true)
    parseC5 parseC5 nowC (nowC + 600) 30 30 [] feedsC5 feedsC5 [] [] "id-c5"
    (by decide) (by intro t ht; exact absurd ht (List.not_mem_nil _)) (by decide)
    (by decide)

/-- C9: the debug/sample-mode frame.  Each feed contributes at most 2 messages
and the NWS source at most 2; the debug output of the RSS pass is the flat
concatenation of the per-feed sample lists and does not depend on the loaded
seen set in any way (the dedup store is not consulted to exclude anything);
the seen set is left untouched; the NWS pass sends its samples unconditionally;
and a debug run never writes the persisted store. -/
theorem c9_debug_mode_frame :
    (∀ (label : String) (entries : List Entry),
      (debugRssSource label entries).length ≤ 2) ∧
    (∀ feats : List NwsProps, (debugNws feats).length ≤ 2) ∧
    (∀ (parse : String → Option Int) (now w : Int) (seen : List String)
        (feeds : List (String × List Entry)),
      (check_rss_sources parse now w true seen feeds).1 =
        (feeds.map fun s => debugRssSource s.1 s.2).flatten) ∧
    (∀ (parse : String → Option Int) (now w : Int) (seen1 seen2 : List String)
        (feeds : List (String × List Entry)),
      (check_rss_sources parse now w true seen1 feeds).1 =
        (check_rss_sources parse now w true seen2 feeds).1) ∧
    (∀ (parse : String → Option Int) (now w : Int) (seen : List String)
        (feeds : List (String × List Entry)),
      (check_rss_sources parse now w true seen feeds).2 = seen) ∧
    (∀ (parse : String → Option Int) (now w : Int) (feats : List NwsProps),
      check_nws_severe parse now w true feats = debugNws feats) ∧
    (∀ (deliver : String → Bool) (parse : String → Option Int) (now w : Int)
        (store : List (String × Int)) (feeds : List (String × List Entry))
        (feats : List NwsProps),
      (mainRun deliver parse now w true store feeds feats).store = store) := by
  refine ⟨?_, ?_, ?_, ?_, ?_, ?_, ?_⟩
  · intro label entries
    calc (debugRssSource label entries).length
        ≤ (entries.take 2).length := List.length_filterMap_le _ _
      _ ≤ 2 := by rw [List.length_take]; exact min_le_left _ _
  · intro feats
    calc (debugNws feats).length = (feats.take 2).length := List.length_map _ _
      _ ≤ 2 := by rw [List.length_take]; exact min_le_left _ _
  · intro parse now w seen feeds; rfl
  · intro parse now w seen1 seen2 feeds; rfl
  · intro parse now w seen feeds; rfl
  · intro parse now w feats; rfl
  · intro deliver parse now w store feeds feats; rfl
